import Mathlib

/-!
Shallow embedding of `src/TrajectoryImageGenerator.py` (class
`TrajectoryImageGenerator`): the partition computed by `run` via
`np.array_split`, the trajectory smoothing (`get_smooth_positions` /
`smooth_trajectory`), the frame-path naming and `make_movie` input list,
the worker/progress-counter step semantics of `generate_images`, and the
teardown path (`_async_raise` / `_stop_thread` / `cleanup`).
-/

namespace TrajectoryImageGenerator

/-! ### Partitioning (`run`, line 197: `np.array_split(self.indices, len(self.views))`)

numpy's `array_split(ary, n)` computes `Neach, extras = divmod(l, n)` and uses
section sizes `extras * [Neach + 1] + (n - extras) * [Neach]`, slicing the
array at the cumulative sizes.  `sectionSizes` is that size list and
`takeDropSplit` performs the successive slicing. -/

def sectionSizes (l n : ℕ) : List ℕ :=
  List.replicate (l % n) (l / n + 1) ++ List.replicate (n - l % n) (l / n)

def takeDropSplit : List ℕ → List ℕ → List (List ℕ)
  | _, [] => []
  | L, s :: rest => L.take s :: takeDropSplit (L.drop s) rest

/-- `np.array_split(L, n)`: raises `ValueError` when `n = 0`
(numpy: "number sections must be larger than 0."). -/
def array_split (L : List ℕ) (n : ℕ) : Except String (List (List ℕ)) :=
  if n = 0 then Except.error "number sections must be larger than 0."
  else Except.ok (takeDropSplit L (sectionSizes L.length n))

/-- The bucket list `run` builds when at least one view exists. -/
def runPartition (L : List ℕ) (n : ℕ) : List (List ℕ) :=
  takeDropSplit L (sectionSizes L.length n)

/-! ### Smoothing (`get_smooth_positions`, lines 134-144; `smooth_trajectory`, 146-150)

The timeseries is a `(atoms, frames, 3)` array and
`np.mean(ts[:, start:end, :], axis=1)` averages along the frame axis
independently for every `(atom, coordinate)` component; `ts : ℕ → ℚ` models
one such component as a function of the frame index.  Python computes
`start = max(0, i - w // 2)` over ℤ, which coincides with truncated ℕ
subtraction `i - w / 2`. -/

/-- Mean of `ts` over the half-open frame window `[a, b)`
(`np.mean(ts[:, a:b, :], axis=1)` on one component). -/
def windowMean (ts : ℕ → ℚ) (a b : ℕ) : ℚ :=
  (∑ j in Finset.Ico a b, ts j) / ((b - a : ℕ) : ℚ)

/-- `get_smooth_positions` (lines 138-144): for frame `i`,
`start = max(0, i - w//2)`, `end = min(T, i + w//2 + 1)`, value =
mean of the original timeseries over `[start, end)`. -/
def get_smooth_positions (ts : ℕ → ℚ) (T w : ℕ) (i : ℕ) : ℚ :=
  windowMean ts (i - w / 2) (min T (i + w / 2 + 1))

/-- `smooth_trajectory` (lines 146-150): writes the smoothed value back into
every frame `i < T`; all reads in `get_smooth_positions` see the original
positions since the write-back happens after the whole smoothed array is
computed. -/
def smooth_trajectory (ts : ℕ → ℚ) (T w : ℕ) : ℕ → ℚ :=
  fun i => if i < T then get_smooth_positions ts T w i else ts i

/-- `__init__` (lines 124-126): `if self.smoothing_window > 1:
self.smooth_trajectory()`; otherwise the positions are left untouched. -/
def initPositions (ts : ℕ → ℚ) (T w : ℕ) : ℕ → ℚ :=
  if w > 1 then smooth_trajectory ts T w else ts

/-! ### Frame paths and `make_movie` (lines 188-193, 248-262) -/

/-- Python `toString` of a natural number (`repr`). -/
def natRepr (i : ℕ) : String := toString i

/-- Python `f-string` formatting with spec `06d` on a non-negative integer:
zero-pad the decimal representation on the left to width 6 (numbers with more
than six digits are printed in full). -/
def pad6 (i : ℕ) : String :=
  String.mk (List.replicate (6 - (natRepr i).length) (Char.ofNat 48)) ++ natRepr i

/-- `generate_images` line 191:
`os.path.join(self.image_folder, f'frame_{i:06d}.png')`; `os.path.join` with a
non-empty relative folder not ending in a separator inserts one `/`. -/
def framePath (imageFolder : String) (i : ℕ) : String :=
  imageFolder ++ "/" ++ "frame_" ++ pad6 i ++ ".png"

/-- `make_movie` (lines 248-262): the encoder input is
`[os.path.join(self.image_folder, f'frame_{i:06d}.png') for i in self.indices]`
— built from the stored index list, never from a directory listing
(`dirListing` is what `os.listdir` would see; the live code ignores it).
Returns the encoder's arguments: ordered file list and fps. -/
def make_movie (imageFolder : String) (indices : List ℕ)
    (dirListing : List String) (fps : ℕ) : List String × ℕ :=
  (indices.map (fun i => framePath imageFolder i), fps)

/-! ### Worker dispatch and the progress counter (`generate_images`, lines 188-193;
`run`, lines 195-211)

`run` creates the tqdm bar with `total=len(self.indices)` and initial count 0,
then starts one thread per `(view, bucket)` pair.  Each worker iterates its
bucket in order; for every index it writes the frame image and then calls
`self.progress_bar.update(1)`.  Concurrency is modelled as an interleaving:
a schedule is a list of worker indices, and each scheduled worker that still
has frames left writes its next frame and bumps the shared counter by one. -/

structure DispatchState where
  counter : ℕ
  buckets : List (List ℕ)
  deriving Repr, DecidableEq

/-- State right after `run` dispatches with `n ≥ 1` views. -/
def runInit (L : List ℕ) (n : ℕ) : DispatchState :=
  { counter := 0, buckets := runPartition L n }

/-- One scheduling step: worker `k` (if it still has frames) writes its next
frame and increments the progress counter by one; a worker whose bucket is
exhausted has returned and changes nothing. -/
def stepWorker (s : DispatchState) (k : ℕ) : DispatchState :=
  match s.buckets.get? k with
  | some (_ :: rest) => { counter := s.counter + 1, buckets := s.buckets.set k rest }
  | _ => s

/-- Run a whole interleaving of worker steps. -/
def execSchedule (s : DispatchState) (sched : List ℕ) : DispatchState :=
  sched.foldl stepWorker s

/-- All workers have completed: every bucket has been fully consumed. -/
def allDone (s : DispatchState) : Prop := ∀ b ∈ s.buckets, b = []

instance (s : DispatchState) : Decidable (allDone s) := by
  unfold allDone; infer_instance

/-! ### Threads, `_async_raise` / `_stop_thread` / `cleanup` (lines 213-246) -/

inductive ThreadState
  | notStarted
  | running
  | finished
  deriving Repr, DecidableEq

/-- The Python exception classes that the teardown path can see. -/
inductive PyError
  | typeError
  | valueError
  | systemError
  deriving Repr, DecidableEq

/-- `_async_raise(tid, exctype)` (lines 213-222):
`PyThreadState_SetAsyncExc` returns the number of thread states it modified —
`1` when `tid` names a live thread, `0` otherwise, in which case the method
raises `ValueError("Invalid thread id")`.  On success the target thread
receives `SystemExit` and dies. -/
def _async_raise (t : ThreadState) : Except PyError ThreadState :=
  match t with
  | ThreadState.running => Except.ok ThreadState.finished
  | _ => Except.error PyError.valueError

/-- `_stop_thread` (lines 224-227) is declared
`@staticmethod def _stop_thread(self, thread)` but invoked as
`self._stop_thread(thread)`: a staticmethod has no bound receiver, so the
single argument binds `self`, the parameter `thread` is missing, and the call
raises `TypeError` before the body (`self._async_raise(...)`) ever runs. -/
def _stop_thread (t : ThreadState) : Except PyError ThreadState :=
  Except.error PyError.typeError

/-- The thread loop of `cleanup` (lines 242-246):
`try: self._stop_thread(thread) except TypeError: continue`.  Only
`TypeError` is caught; any other exception would propagate. -/
def stopThreadsLoop : List ThreadState → Except PyError (List ThreadState)
  | [] => Except.ok []
  | t :: rest =>
    match _stop_thread t with
    | Except.ok t2 => (stopThreadsLoop rest).map (fun l => t2 :: l)
    | Except.error PyError.typeError => (stopThreadsLoop rest).map (fun l => t :: l)
    | Except.error e => Except.error e

/-- Observable teardown actions, in the order `cleanup` performs them. -/
inductive CleanupEvent
  | closeProgressBar
  | closeView (viewId : ℕ)
  | stopAttempt (threadId : ℕ)
  deriving Repr, DecidableEq

/-- The state `cleanup` acts on: whether a progress bar exists (`run` sets
one; before `run` it is `None`), the open views, the registered worker
threads, and the progress counter value. -/
structure GeneratorState where
  progressBarOpen : Bool
  views : List ℕ
  threads : List ThreadState
  counter : ℕ
  deriving Repr, DecidableEq

/-- `cleanup` (lines 236-246): close the progress bar if one exists, close
every view, then attempt to force-stop every registered thread, skipping
`TypeError`.  Returns the resulting state and the ordered event trace. -/
def cleanup (s : GeneratorState) :
    Except PyError (GeneratorState × List CleanupEvent) :=
  match stopThreadsLoop s.threads with
  | Except.error e => Except.error e
  | Except.ok ts =>
    Except.ok
      ({ s with progressBarOpen := false, views := [], threads := ts },
       (if s.progressBarOpen then [CleanupEvent.closeProgressBar] else []) ++
         (List.range s.views.length).map CleanupEvent.closeView ++
         (List.range s.threads.length).map CleanupEvent.stopAttempt)

/-- The state of a generator on which `run()` was never invoked: no progress
bar, `self.threads == []` (set in `__init__`); `create_views` has produced
`num_views` views. -/
def freshState (numViews : ℕ) : GeneratorState :=
  { progressBarOpen := false, views := List.range numViews,
    threads := [], counter := 0 }

/-! ### Construction and `run` as effectful steps (`__init__`, lines 112-132;
`run`, lines 195-211) -/

/-- Filesystem / dispatch effects that construction, `run` and the workers
perform, in order. -/
inductive Effect
  | makedirs (folder : String)
  | displayView (viewId : ℕ)
  | createProgressBar (total : ℕ)
  | startThread (threadId : ℕ)
  | writeImage (path : String)
  deriving Repr, DecidableEq

/-- `__init__` (lines 112-132): store the configuration, smooth when
`smoothing_window > 1`, `os.makedirs(self.image_folder, exist_ok=True)`,
then `create_views` (which loops `range(self.num_views)` and displays each
view).  No argument is validated: `num_views = 0` simply creates no view and
construction succeeds.  Returns the constructed state and the effect trace. -/
def init (imageFolder : String) (indices : List ℕ) (numViews : ℕ) :
    Except PyError (GeneratorState × List Effect) :=
  Except.ok
    ({ progressBarOpen := false, views := List.range numViews,
       threads := [], counter := 0 },
     Effect.makedirs imageFolder ::
       (List.range numViews).map Effect.displayView)

/-- `run` (lines 195-211): split the indices over `len(self.views)` views
(`np.array_split` raises `ValueError` on zero sections), create the progress
bar with `total=len(self.indices)`, start one thread per `(view, bucket)`
pair.  No directory creation happens here.  Returns the dispatch state and
the effect trace. -/
def run (imageFolder : String) (indices : List ℕ) (s : GeneratorState) :
    Except PyError (DispatchState × List Effect) :=
  match array_split indices s.views.length with
  | Except.error _ => Except.error PyError.valueError
  | Except.ok buckets =>
    Except.ok
      ({ counter := 0, buckets := buckets },
       Effect.createProgressBar indices.length ::
         (List.range buckets.length).map Effect.startThread)

/-- The effects one worker performs for its bucket (`generate_images`,
lines 188-193): write each frame image, in bucket order.  (The counter
update after each write is modelled by `stepWorker`.) -/
def generate_images_effects (imageFolder : String) (bucket : List ℕ) :
    List Effect :=
  bucket.map (fun i => Effect.writeImage (framePath imageFolder i))

/-- Total number of frames still unwritten across all workers. -/
def sumRemaining (s : DispatchState) : ℕ := (s.buckets.map List.length).sum

/-- `true` exactly on a directory-creation effect. -/
def isMakedirs : Effect → Bool
  | Effect.makedirs _ => true
  | _ => false

/-- A concrete generator state whose single worker has already completed. -/
def finishedGen : GeneratorState :=
  { progressBarOpen := true, views := [0],
    threads := [ThreadState.finished], counter := 5 }

/-- A concrete generator state with one worker still running. -/
def runningGen : GeneratorState :=
  { progressBarOpen := true, views := [0, 1],
    threads := [ThreadState.running], counter := 0 }

/-! ### Lemmas about the partition -/

lemma takeDropSplit_length (sizes : List ℕ) :
    ∀ L, (takeDropSplit L sizes).length = sizes.length := by
  induction sizes with
  | nil => intro L; rfl
  | cons s rest ih =>
    intro L
    simp [takeDropSplit, ih]

lemma getD_replicate_of_lt (k x i : ℕ) (h : i < k) :
    (List.replicate k x).getD i 0 = x := by
  induction k generalizing i with
  | zero => omega
  | succ m ih =>
    cases i with
    | zero => rfl
    | succ j =>
      rw [List.replicate_succ, List.getD_cons_succ]
      exact ih j (by omega)

lemma sectionSizes_length (l n : ℕ) (hn : 0 < n) :
    (sectionSizes l n).length = n := by
  have hmod : l % n < n := Nat.mod_lt _ hn
  simp [sectionSizes]
  omega

lemma sectionSizes_sum (l n : ℕ) (hn : 0 < n) :
    (sectionSizes l n).sum = l := by
  have hmod : l % n < n := Nat.mod_lt _ hn
  have h4 : n * (l / n) + l % n = l := Nat.div_add_mod l n
  have h3 : l % n * (l / n) ≤ n * (l / n) :=
    Nat.mul_le_mul_right _ hmod.le
  simp only [sectionSizes, List.sum_append, List.sum_replicate, smul_eq_mul]
  zify [h3, hmod.le]
  linear_combination Int.ediv_add_emod (l : ℤ) (n : ℤ)

lemma sectionSizes_getD_lt (l n i : ℕ) (h : i < l % n) :
    (sectionSizes l n).getD i 0 = l / n + 1 := by
  unfold sectionSizes
  rw [List.getD_append _ _ _ _ (by simpa using h)]
  exact getD_replicate_of_lt _ _ _ h

lemma sectionSizes_getD_ge (l n i : ℕ) (hge : l % n ≤ i) (hi : i < n) :
    (sectionSizes l n).getD i 0 = l / n := by
  unfold sectionSizes
  rw [List.getD_append_right _ _ _ _ (by simpa using hge)]
  exact getD_replicate_of_lt _ _ _ (by simp; omega)

lemma sectionSizes_mem (l n x : ℕ) (h : x ∈ sectionSizes l n) :
    x = l / n ∨ x = l / n + 1 := by
  unfold sectionSizes at h
  rcases List.mem_append.mp h with h1 | h2
  · exact Or.inr (List.eq_of_mem_replicate h1)
  · exact Or.inl (List.eq_of_mem_replicate h2)

lemma takeDropSplit_flatten (sizes : List ℕ) :
    ∀ L : List ℕ, (takeDropSplit L sizes).flatten = L.take sizes.sum := by
  induction sizes with
  | nil => intro L; rfl
  | cons s rest ih =>
    intro L
    simp only [takeDropSplit, List.flatten_cons, List.sum_cons, ih, List.take_add]

lemma takeDropSplit_getD_length (sizes : List ℕ) :
    ∀ L : List ℕ, sizes.sum ≤ L.length →
      ∀ i, i < sizes.length →
        ((takeDropSplit L sizes).getD i []).length = sizes.getD i 0 := by
  induction sizes with
  | nil => intro L _ i hi; simp at hi
  | cons s rest ih =>
    intro L hsum i hi
    simp only [List.sum_cons] at hsum
    cases i with
    | zero =>
      simp [takeDropSplit, List.length_take]
      omega
    | succ j =>
      simp only [takeDropSplit, List.getD_cons_succ]
      exact ih (L.drop s) (by simp [List.length_drop]; omega) j
        (by simpa using hi)

lemma runPartition_length (L : List ℕ) (N : ℕ) (hN : 1 ≤ N) :
    (runPartition L N).length = N := by
  rw [runPartition, takeDropSplit_length, sectionSizes_length _ _ hN]

lemma runPartition_flatten (L : List ℕ) (N : ℕ) (hN : 1 ≤ N) :
    (runPartition L N).flatten = L := by
  rw [runPartition, takeDropSplit_flatten, sectionSizes_sum _ _ hN, List.take_length]

lemma runPartition_getD_length (L : List ℕ) (N : ℕ) (hN : 1 ≤ N)
    (i : ℕ) (hi : i < N) :
    ((runPartition L N).getD i []).length = (sectionSizes L.length N).getD i 0 :=
  takeDropSplit_getD_length _ L (le_of_eq (sectionSizes_sum _ _ hN)) i
    (by rw [sectionSizes_length _ _ hN]; exact hi)

/-- **C1.** `run` splits the index list with
`np.array_split(self.indices, len(self.views))`.  For every index list `L`
and view count `N ≥ 1` (covering both `N ≤ len L` and `N > len L`, in which
case some buckets are empty): the split succeeds and yields exactly `N`
buckets; their concatenation in bucket order is exactly `L` (so every
element lands in exactly one bucket, order preserved within and across
buckets); any two bucket sizes differ by at most 1; the first
`len L % N` buckets have `len L / N + 1` elements and the remaining buckets
have `len L / N` elements (so when `len L % N ≠ 0` the first `len L % N`
buckets each get one extra element). -/
theorem run_partition_correct (L : List ℕ) (N : ℕ) (hN : 1 ≤ N) :
    array_split L N = Except.ok (runPartition L N) ∧
    (runPartition L N).length = N ∧
    (runPartition L N).flatten = L ∧
    (∀ i, i < N → ∀ j, j < N →
      ((runPartition L N).getD i []).length ≤
        ((runPartition L N).getD j []).length + 1) ∧
    (∀ i, i < L.length % N →
      ((runPartition L N).getD i []).length = L.length / N + 1) ∧
    (∀ i, L.length % N ≤ i → i < N →
      ((runPartition L N).getD i []).length = L.length / N) := by
  have hN0 : N ≠ 0 := by omega
  have hmod : L.length % N < N := Nat.mod_lt _ hN
  refine ⟨by rw [array_split, if_neg hN0]; rfl,
    runPartition_length L N hN, runPartition_flatten L N hN, ?_, ?_, ?_⟩
  · intro i hi j hj
    rw [runPartition_getD_length L N hN i hi, runPartition_getD_length L N hN j hj]
    have hlen := sectionSizes_length L.length N hN
    have hmi : (sectionSizes L.length N).getD i 0 ∈ sectionSizes L.length N := by
      rw [List.getD_eq_getElem _ _ (by omega)]
      exact List.getElem_mem _
    have hmj : (sectionSizes L.length N).getD j 0 ∈ sectionSizes L.length N := by
      rw [List.getD_eq_getElem _ _ (by omega)]
      exact List.getElem_mem _
    rcases sectionSizes_mem _ _ _ hmi with h1 | h1 <;>
      rcases sectionSizes_mem _ _ _ hmj with h2 | h2 <;> omega
  · intro i hi
    rw [runPartition_getD_length L N hN i (by omega)]
    exact sectionSizes_getD_lt _ _ _ hi
  · intro i hge hi
    rw [runPartition_getD_length L N hN i hi]
    exact sectionSizes_getD_ge _ _ _ hge hi

/-- Witness for C1 at the spec scenario `L = [0,2,4,6,8,10]`, `N = 3`
(buckets `[[0,2],[4,6],[8,10]]`). -/
theorem run_partition_correct_witness :
    (1 ≤ 3) ∧
    (runPartition [0,2,4,6,8,10] 3 = [[0,2],[4,6],[8,10]]) ∧
    (array_split [0,2,4,6,8,10] 3 = Except.ok (runPartition [0,2,4,6,8,10] 3) ∧
      (runPartition [0,2,4,6,8,10] 3).length = 3 ∧
      (runPartition [0,2,4,6,8,10] 3).flatten = [0,2,4,6,8,10] ∧
      (∀ i, i < 3 → ∀ j, j < 3 →
        ((runPartition [0,2,4,6,8,10] 3).getD i []).length ≤
          ((runPartition [0,2,4,6,8,10] 3).getD j []).length + 1) ∧
      (∀ i, i < ([0,2,4,6,8,10] : List ℕ).length % 3 →
        ((runPartition [0,2,4,6,8,10] 3).getD i []).length =
          ([0,2,4,6,8,10] : List ℕ).length / 3 + 1) ∧
      (∀ i, ([0,2,4,6,8,10] : List ℕ).length % 3 ≤ i → i < 3 →
        ((runPartition [0,2,4,6,8,10] 3).getD i []).length =
          ([0,2,4,6,8,10] : List ℕ).length / 3)) :=
  ⟨by decide, by decide, run_partition_correct [0,2,4,6,8,10] 3 (by decide)⟩

/-- **C2.** For every trajectory component `ts` of `T` frames and window `w`,
smoothing writes into every frame `i < T` the mean over the clipped half-open
window `[max(0, i - w//2), min(T, i + w//2 + 1))` (stated with Python's
integer `max`/`min` arithmetic); in particular, when `w/2 < T`, frame `0`
gets the mean over frames `0 .. w/2` inclusive; the last frame gets the mean
over frames `T-1-w/2 .. T-1` inclusive; and an interior frame
(`w/2 ≤ i < T-1-w/2`) gets the mean over `i-w/2 .. i+w/2` inclusive, a run
of `2*(w/2)+1` consecutive frames, which is exactly `w` frames when `w` is
odd and `w+1` frames when `w` is even. -/
theorem smoothing_window_law (ts : ℕ → ℚ) (T w i : ℕ) (hi : i < T) :
    smooth_trajectory ts T w i =
      windowMean ts (max 0 ((i : ℤ) - (w : ℤ) / 2)).toNat
        (min (T : ℤ) ((i : ℤ) + (w : ℤ) / 2 + 1)).toNat ∧
    (w / 2 < T → smooth_trajectory ts T w 0 = windowMean ts 0 (w / 2 + 1)) ∧
    smooth_trajectory ts T w (T - 1) = windowMean ts (T - 1 - w / 2) T ∧
    (w / 2 ≤ i → i < T - 1 - w / 2 →
      smooth_trajectory ts T w i = windowMean ts (i - w / 2) (i + w / 2 + 1) ∧
      (i + w / 2 + 1) - (i - w / 2) = 2 * (w / 2) + 1 ∧
      (w % 2 = 1 → (i + w / 2 + 1) - (i - w / 2) = w) ∧
      (w % 2 = 0 → (i + w / 2 + 1) - (i - w / 2) = w + 1)) := by
  have h1 : (max 0 ((i : ℤ) - (w : ℤ) / 2)).toNat = i - w / 2 := by omega
  have h2 : (min (T : ℤ) ((i : ℤ) + (w : ℤ) / 2 + 1)).toNat
      = min T (i + w / 2 + 1) := by omega
  refine ⟨?_, ?_, ?_, ?_⟩
  · rw [smooth_trajectory]
    simp only [if_pos hi]
    rw [get_smooth_positions, h1, h2]
  · intro hw
    rw [smooth_trajectory]
    simp only [if_pos (show 0 < T by omega)]
    rw [get_smooth_positions]
    have : min T (0 + w / 2 + 1) = w / 2 + 1 := by omega
    rw [this, Nat.zero_sub]
  · rw [smooth_trajectory]
    simp only [if_pos (show T - 1 < T by omega)]
    rw [get_smooth_positions]
    have : min T (T - 1 + w / 2 + 1) = T := by omega
    rw [this]
  · intro hwi hiT
    have : min T (i + w / 2 + 1) = i + w / 2 + 1 := by omega
    refine ⟨?_, by omega, fun _ => by omega, fun _ => by omega⟩
    rw [smooth_trajectory]
    simp only [if_pos hi]
    rw [get_smooth_positions, this]

/-- Witness for C2 at `ts j = j`, `T = 10`, `w = 4`, interior frame `i = 5`. -/
theorem smoothing_window_law_witness :
    (5 < 10) ∧
    (smooth_trajectory (fun j => (j : ℚ)) 10 4 5 =
      windowMean (fun j => (j : ℚ)) (max 0 ((5 : ℤ) - (4 : ℤ) / 2)).toNat
        (min (10 : ℤ) ((5 : ℤ) + (4 : ℤ) / 2 + 1)).toNat ∧
    (4 / 2 < 10 → smooth_trajectory (fun j => (j : ℚ)) 10 4 0 =
      windowMean (fun j => (j : ℚ)) 0 (4 / 2 + 1)) ∧
    smooth_trajectory (fun j => (j : ℚ)) 10 4 (10 - 1) =
      windowMean (fun j => (j : ℚ)) (10 - 1 - 4 / 2) 10 ∧
    (4 / 2 ≤ 5 → 5 < 10 - 1 - 4 / 2 →
      smooth_trajectory (fun j => (j : ℚ)) 10 4 5 =
        windowMean (fun j => (j : ℚ)) (5 - 4 / 2) (5 + 4 / 2 + 1) ∧
      (5 + 4 / 2 + 1) - (5 - 4 / 2) = 2 * (4 / 2) + 1 ∧
      (4 % 2 = 1 → (5 + 4 / 2 + 1) - (5 - 4 / 2) = 4) ∧
      (4 % 2 = 0 → (5 + 4 / 2 + 1) - (5 - 4 / 2) = 4 + 1))) :=
  ⟨by decide, smoothing_window_law (fun j => (j : ℚ)) 10 4 5 (by decide)⟩

/-- **C7.** When the smoothing window is at most 1 (in particular
`smoothing_window = 1`), `__init__` skips the smoothing step entirely and the
position data after construction equals the pre-construction positions
exactly. -/
theorem smoothing_skipped_window_le_one (ts : ℕ → ℚ) (T w : ℕ) (hw : w ≤ 1) :
    initPositions ts T w = ts := by
  rw [initPositions, if_neg (by omega)]

/-- Witness for C7 at `smoothing_window = 1`. -/
theorem smoothing_skipped_window_le_one_witness :
    (1 ≤ 1) ∧ initPositions (fun j => (j : ℚ)) 5 1 = ((fun j => (j : ℚ)) : ℕ → ℚ) :=
  ⟨by decide, smoothing_skipped_window_le_one (fun j => (j : ℚ)) 5 1 (by decide)⟩

/-! ### Lemmas about the dispatch step semantics -/

lemma sumLen_set (bs : List (List ℕ)) :
    ∀ k x rest, bs.get? k = some (x :: rest) →
      ((bs.set k rest).map List.length).sum + 1 = (bs.map List.length).sum := by
  induction bs with
  | nil => intro k x rest h; simp at h
  | cons b bs ih =>
    intro k x rest h
    cases k with
    | zero =>
      simp only [List.get?_cons_zero, Option.some.injEq] at h
      subst h
      simp [List.set]
      omega
    | succ j =>
      simp only [List.get?_cons_succ] at h
      simp only [List.set_cons_succ, List.map_cons, List.sum_cons]
      have := ih j x rest h
      omega

lemma stepWorker_cases (s : DispatchState) (k : ℕ) :
    stepWorker s k = s ∨
      ∃ x rest, s.buckets.get? k = some (x :: rest) ∧
        stepWorker s k =
          { counter := s.counter + 1, buckets := s.buckets.set k rest } := by
  rcases h : s.buckets.get? k with _ | b
  · left
    unfold stepWorker
    rw [h]
  · cases b with
    | nil =>
      left
      unfold stepWorker
      rw [h]
    | cons x rest =>
      right
      refine ⟨x, rest, rfl, ?_⟩
      unfold stepWorker
      rw [h]

lemma stepWorker_invariant (s : DispatchState) (k : ℕ) :
    (stepWorker s k).counter + sumRemaining (stepWorker s k) =
      s.counter + sumRemaining s := by
  rcases stepWorker_cases s k with h | ⟨x, rest, hget, h⟩
  · rw [h]
  · rw [h]
    simp only [sumRemaining]
    have := sumLen_set s.buckets k x rest hget
    omega

lemma stepWorker_counter_le (s : DispatchState) (k : ℕ) :
    s.counter ≤ (stepWorker s k).counter := by
  rcases stepWorker_cases s k with h | ⟨_, _, _, h⟩ <;> rw [h]
  exact Nat.le_succ _

lemma execSchedule_invariant (sched : List ℕ) :
    ∀ s : DispatchState,
      (execSchedule s sched).counter + sumRemaining (execSchedule s sched) =
        s.counter + sumRemaining s := by
  induction sched with
  | nil => intro s; rfl
  | cons k rest ih =>
    intro s
    show (execSchedule (stepWorker s k) rest).counter +
        sumRemaining (execSchedule (stepWorker s k) rest) = _
    rw [ih (stepWorker s k), stepWorker_invariant]

lemma execSchedule_counter_le (sched : List ℕ) :
    ∀ s : DispatchState, s.counter ≤ (execSchedule s sched).counter := by
  induction sched with
  | nil => intro s; exact le_refl _
  | cons k rest ih =>
    intro s
    exact le_trans (stepWorker_counter_le s k) (ih (stepWorker s k))

lemma sumRemaining_runInit (L : List ℕ) (N : ℕ) (hN : 1 ≤ N) :
    sumRemaining (runInit L N) = L.length := by
  show ((runPartition L N).map List.length).sum = L.length
  rw [← List.length_flatten, runPartition_flatten L N hN]

/-- **C5.** The shared progress counter starts at zero at dispatch; each
worker step either changes nothing (its bucket is exhausted) or consumes
exactly one frame of its bucket and increments the counter by exactly one
(hence the counter is monotonically non-decreasing along any interleaving);
in every reachable state the counter is at most `len L`; and when all
workers have completed (all buckets consumed) the counter equals `len L`. -/
theorem progress_counter_correct (L : List ℕ) (N : ℕ) (hN : 1 ≤ N) :
    (runInit L N).counter = 0 ∧
    (∀ sched k,
      stepWorker (execSchedule (runInit L N) sched) k =
          execSchedule (runInit L N) sched ∨
        ∃ x rest,
          (execSchedule (runInit L N) sched).buckets.get? k = some (x :: rest) ∧
          stepWorker (execSchedule (runInit L N) sched) k =
            { counter := (execSchedule (runInit L N) sched).counter + 1,
              buckets := (execSchedule (runInit L N) sched).buckets.set k rest }) ∧
    (∀ sched sched2,
      (execSchedule (runInit L N) sched).counter ≤
        (execSchedule (runInit L N) (sched ++ sched2)).counter) ∧
    (∀ sched, (execSchedule (runInit L N) sched).counter ≤ L.length) ∧
    (∀ sched, allDone (execSchedule (runInit L N) sched) →
      (execSchedule (runInit L N) sched).counter = L.length) := by
  have hinv : ∀ sched,
      (execSchedule (runInit L N) sched).counter +
        sumRemaining (execSchedule (runInit L N) sched) = L.length := by
    intro sched
    rw [execSchedule_invariant sched (runInit L N), sumRemaining_runInit L N hN]
    simp [runInit]
  refine ⟨rfl, fun sched k => stepWorker_cases _ k, ?_, ?_, ?_⟩
  · intro sched sched2
    have hsplit : execSchedule (runInit L N) (sched ++ sched2) =
        execSchedule (execSchedule (runInit L N) sched) sched2 := by
      simp only [execSchedule, List.foldl_append]
    rw [hsplit]
    exact execSchedule_counter_le sched2 _
  · intro sched
    have := hinv sched
    omega
  · intro sched hdone
    have hrem : sumRemaining (execSchedule (runInit L N) sched) = 0 := by
      rw [sumRemaining, List.sum_eq_zero]
      intro x hx
      rcases List.mem_map.mp hx with ⟨b, hb, hxb⟩
      rw [hdone b hb] at hxb
      exact hxb.symm
    have := hinv sched
    omega

/-- Witness for C5 at the spec scenario `L = [0,2,4,6,8,10]`, `N = 3`:
a full interleaving drives the counter to exactly 6. -/
theorem progress_counter_correct_witness :
    (1 ≤ 3) ∧
    (execSchedule (runInit [0,2,4,6,8,10] 3) [0,0,1,2,1,2]).counter = 6 ∧
    allDone (execSchedule (runInit [0,2,4,6,8,10] 3) [0,0,1,2,1,2]) ∧
    ((runInit [0,2,4,6,8,10] 3).counter = 0 ∧
      (∀ sched k,
        stepWorker (execSchedule (runInit [0,2,4,6,8,10] 3) sched) k =
            execSchedule (runInit [0,2,4,6,8,10] 3) sched ∨
          ∃ x rest,
            (execSchedule (runInit [0,2,4,6,8,10] 3) sched).buckets.get? k =
              some (x :: rest) ∧
            stepWorker (execSchedule (runInit [0,2,4,6,8,10] 3) sched) k =
              { counter :=
                  (execSchedule (runInit [0,2,4,6,8,10] 3) sched).counter + 1,
                buckets :=
                  (execSchedule (runInit [0,2,4,6,8,10] 3)
                      sched).buckets.set k rest }) ∧
      (∀ sched sched2,
        (execSchedule (runInit [0,2,4,6,8,10] 3) sched).counter ≤
          (execSchedule (runInit [0,2,4,6,8,10] 3) (sched ++ sched2)).counter) ∧
      (∀ sched, (execSchedule (runInit [0,2,4,6,8,10] 3) sched).counter ≤
        ([0,2,4,6,8,10] : List ℕ).length) ∧
      (∀ sched, allDone (execSchedule (runInit [0,2,4,6,8,10] 3) sched) →
        (execSchedule (runInit [0,2,4,6,8,10] 3) sched).counter =
          ([0,2,4,6,8,10] : List ℕ).length)) :=
  ⟨by decide, by decide, by decide,
    progress_counter_correct [0,2,4,6,8,10] 3 (by decide)⟩

/-! ### Frame naming and movie assembly -/

/-- **C6.** The on-disk path of frame `i` is the pure deterministic function
`imageFolder/frame_<i zero-padded to 6 digits>.png` — for `i < 10^6` the
padded field is exactly 6 characters — and `make_movie` passes the encoder
exactly the list of these paths derived from the original index list in its
original order: the result is the same for any two directory listings, so
other files in the folder are irrelevant to assembly. -/
theorem frame_paths_and_movie_input (imageFolder : String) (indices : List ℕ)
    (dirListing dirListing2 : List String) (fps : ℕ) (i : ℕ)
    (hi : i < 10 ^ 6) :
    framePath imageFolder i =
      imageFolder ++ "/" ++ "frame_" ++ pad6 i ++ ".png" ∧
    (pad6 i).length = 6 ∧
    make_movie imageFolder indices dirListing fps =
      make_movie imageFolder indices dirListing2 fps ∧
    make_movie imageFolder indices dirListing fps =
      (indices.map (fun j => framePath imageFolder j), fps) := by
  have hlen : (natRepr i).length ≤ 6 := Nat.repr_length i 6 (by omega) hi
  refine ⟨rfl, ?_, rfl, rfl⟩
  rw [pad6, String.length_append]
  show (List.replicate (6 - (natRepr i).length) (Char.ofNat 48)).length +
      (natRepr i).length = 6
  rw [List.length_replicate]
  omega

/-- Witness for C6 at frame index 10: the path is
`7wii_frames_aa/frame_000010.png`. -/
theorem frame_paths_and_movie_input_witness :
    (10 < 10 ^ 6) ∧
    framePath "7wii_frames_aa" 10 = "7wii_frames_aa/frame_000010.png" ∧
    (framePath "7wii_frames_aa" 10 =
      "7wii_frames_aa" ++ "/" ++ "frame_" ++ pad6 10 ++ ".png" ∧
    (pad6 10).length = 6 ∧
    make_movie "7wii_frames_aa" [0,2,4,6,8,10] ["stray.txt"] 30 =
      make_movie "7wii_frames_aa" [0,2,4,6,8,10] [] 30 ∧
    make_movie "7wii_frames_aa" [0,2,4,6,8,10] ["stray.txt"] 30 =
      ([0,2,4,6,8,10].map (fun j => framePath "7wii_frames_aa" j), 30)) :=
  ⟨by decide, by rfl,
    frame_paths_and_movie_input "7wii_frames_aa" [0,2,4,6,8,10]
      ["stray.txt"] [] 30 10 (by decide)⟩

/-! ### Teardown lemmas -/

lemma stopThreadsLoop_ok (ts : List ThreadState) :
    stopThreadsLoop ts = Except.ok ts := by
  induction ts with
  | nil => rfl
  | cons t rest ih => simp [stopThreadsLoop, _stop_thread, ih, Except.map]

lemma cleanup_ok (s : GeneratorState) :
    cleanup s = Except.ok
      ({ s with progressBarOpen := false, views := [], threads := s.threads },
       (if s.progressBarOpen then [CleanupEvent.closeProgressBar] else []) ++
         (List.range s.views.length).map CleanupEvent.closeView ++
         (List.range s.threads.length).map CleanupEvent.stopAttempt) := by
  rw [cleanup, stopThreadsLoop_ok]

/-- **C3.** When every registered worker has already completed, invoking the
forced-stop path (the stop loop of `cleanup`) raises no error — the
`TypeError` produced by the `_stop_thread` call is swallowed by the
`except TypeError` handler — and the progress counter value is unchanged. -/
theorem forced_stop_completed_noop (s : GeneratorState)
    (h : ∀ t ∈ s.threads, t = ThreadState.finished) :
    stopThreadsLoop s.threads = Except.ok s.threads ∧
    ∃ s2 evs, cleanup s = Except.ok (s2, evs) ∧ s2.counter = s.counter :=
  ⟨stopThreadsLoop_ok _, _, _, cleanup_ok s, rfl⟩

/-- Witness for C3: a generator whose single worker has finished. -/
theorem forced_stop_completed_noop_witness :
    (∀ t ∈ finishedGen.threads, t = ThreadState.finished) ∧
    (stopThreadsLoop finishedGen.threads = Except.ok finishedGen.threads ∧
    ∃ s2 evs, cleanup finishedGen = Except.ok (s2, evs) ∧
      s2.counter = finishedGen.counter) :=
  ⟨by decide, forced_stop_completed_noop finishedGen (by decide)⟩

/-- **C10.** For every worker-thread list — threads running, finished, or
never started — `cleanup`'s thread-stopping loop completes without
propagating an exception and terminates no thread: every invocation of
`_stop_thread` through `cleanup` raises `TypeError` (the staticmethod
declares a `self` parameter that is never bound by the
`self._stop_thread(thread)` call), the loop catches it and skips, so the
forced stop is never delivered and every thread keeps its prior state. -/
theorem cleanup_stop_loop_never_stops (s : GeneratorState) :
    (∀ t, _stop_thread t = Except.error PyError.typeError) ∧
    stopThreadsLoop s.threads = Except.ok s.threads ∧
    ∃ s2 evs, cleanup s = Except.ok (s2, evs) ∧ s2.threads = s.threads :=
  ⟨fun _ => rfl, stopThreadsLoop_ok _, _, _, cleanup_ok s, rfl⟩

/-- **C4** (evaluating the code at the failing input): `cleanup` on a
generator with an open progress display, two views, and one still-running
worker emits close-progress-display, close-each-view, stop-attempts in that
order and returns without error, but the running worker is left running —
the forced stop the spec promises is never delivered, because the
`_stop_thread` call raises `TypeError` (its `self` parameter is never
bound) and the loop swallows it.  Calling `cleanup` on a generator on which
`run()` was never invoked (no threads, no progress bar) also completes
without error. -/
theorem cleanup_order_and_lost_stop :
    cleanup runningGen =
      Except.ok
        ({ runningGen with progressBarOpen := false, views := [] },
         [CleanupEvent.closeProgressBar, CleanupEvent.closeView 0,
          CleanupEvent.closeView 1, CleanupEvent.stopAttempt 0]) ∧
    ({ runningGen with progressBarOpen := false, views := [] }
        : GeneratorState).threads = [ThreadState.running] ∧
    cleanup (freshState 3) =
      Except.ok (freshState 0, (List.range 3).map CleanupEvent.closeView) :=
  ⟨rfl, rfl, rfl⟩

/-! ### Construction-time versus dispatch-time behaviour -/

/-- **C8** counterexample: constructing with `num_views = 0` surfaces no
error at setup — `__init__` validates nothing, `create_views` runs its loop
zero times, and construction completes normally with an empty view list. -/
theorem zero_views_init_succeeds :
    init "frames" [0, 1, 2] 0 =
      Except.ok
        ({ progressBarOpen := false, views := [], threads := [], counter := 0 },
         [Effect.makedirs "frames"]) := rfl

/-- **C8** (amended): requesting zero views is not caught at construction —
`__init__` completes normally with zero views — and the failure surfaces
only later at dispatch, where `run` calls `np.array_split(indices, 0)` and
`ValueError` is raised. -/
theorem zero_views_error_at_dispatch (imageFolder : String) (indices : List ℕ)
    (s : GeneratorState) (hv : s.views = []) :
    (∃ st evs, init imageFolder indices 0 = Except.ok (st, evs) ∧
      st.views = []) ∧
    run imageFolder indices s = Except.error PyError.valueError := by
  refine ⟨⟨_, _, rfl, rfl⟩, ?_⟩
  unfold run
  rw [hv]
  rfl

/-- Witness for C8's amended statement on a freshly constructed zero-view
generator. -/
theorem zero_views_error_at_dispatch_witness :
    ((freshState 0).views = []) ∧
    ((∃ st evs, init "frames" [0, 1, 2] 0 = Except.ok (st, evs) ∧
      st.views = []) ∧
    run "frames" [0, 1, 2] (freshState 0) = Except.error PyError.valueError) :=
  ⟨by decide, zero_views_error_at_dispatch "frames" [0, 1, 2] (freshState 0)
    (by decide)⟩

/-- **C9** counterexample: at a concrete input, the effect trace of `run`
contains no directory-creation at all — `os.makedirs` is not called when
`run()` begins (it happened earlier, in `__init__`). -/
theorem run_performs_no_makedirs :
    run "frames" [0, 1, 2] (freshState 2) =
      Except.ok
        ({ counter := 0, buckets := [[0, 1], [2]] },
         [Effect.createProgressBar 3, Effect.startThread 0,
          Effect.startThread 1]) ∧
    ([Effect.createProgressBar 3, Effect.startThread 0,
        Effect.startThread 1].countP isMakedirs = 0) ∧
    (init "frames" [0, 1, 2] 2 =
      Except.ok
        ({ progressBarOpen := false, views := [0, 1],
           threads := [], counter := 0 },
         [Effect.makedirs "frames", Effect.displayView 0,
          Effect.displayView 1])) :=
  ⟨rfl, by decide, rfl⟩

/-- **C9** (amended): parent-directory creation for the image folder happens
exactly once at construction (`__init__` calls
`os.makedirs(self.image_folder, exist_ok=True)`), not when `run()` begins
and not once per frame write: `run`'s effect trace and every worker's
per-frame write trace contain zero `makedirs` effects, while `__init__`'s
trace contains exactly one. -/
theorem makedirs_once_at_construction (imageFolder : String) (indices : List ℕ)
    (numViews : ℕ) (s : GeneratorState) (bucket : List ℕ) :
    (∃ st evs, init imageFolder indices numViews = Except.ok (st, evs) ∧
      evs.countP isMakedirs = 1) ∧
    (∀ d evs, run imageFolder indices s = Except.ok (d, evs) →
      evs.countP isMakedirs = 0) ∧
    (generate_images_effects imageFolder bucket).countP isMakedirs = 0 := by
  refine ⟨⟨_, _, rfl, ?_⟩, ?_, ?_⟩
  · rw [List.countP_cons_of_pos _ _ (by rfl)]
    rw [List.countP_eq_zero.mpr]
    intro a ha
    rcases List.mem_map.mp ha with ⟨v, _, hv⟩
    rw [← hv]
    simp [isMakedirs]
  · intro d evs hrun
    unfold run at hrun
    rcases harr : array_split indices s.views.length with e | buckets
    · rw [harr] at hrun
      simp at hrun
    · rw [harr] at hrun
      simp only [Except.ok.injEq, Prod.mk.injEq] at hrun
      rw [← hrun.2]
      rw [List.countP_cons_of_neg _ _ (by simp [isMakedirs])]
      rw [List.countP_eq_zero.mpr]
      intro a ha
      rcases List.mem_map.mp ha with ⟨v, _, hv⟩
      rw [← hv]
      simp [isMakedirs]
  · rw [List.countP_eq_zero.mpr]
    intro a ha
    rcases List.mem_map.mp ha with ⟨v, _, hv⟩
    rw [← hv]
    simp [isMakedirs]

/-- Witness for C9's amended statement at a concrete configuration. -/
theorem makedirs_once_at_construction_witness :
    (∃ st evs, init "frames" [0, 1, 2] 2 = Except.ok (st, evs) ∧
      evs.countP isMakedirs = 1) ∧
    (∀ d evs, run "frames" [0, 1, 2] (freshState 2) = Except.ok (d, evs) →
      evs.countP isMakedirs = 0) ∧
    (generate_images_effects "frames" [0, 1]).countP isMakedirs = 0 :=
  makedirs_once_at_construction "frames" [0, 1, 2] 2 (freshState 2) [0, 1]

end TrajectoryImageGenerator
